import Mathlib

/-!
Verification of the conversation session engine of the NovaChat frontend
(`Frontend/src/App.jsx` and `Frontend/src/contexts/ConversationsContext.jsx`).

The JavaScript is shallowly embedded: React state updates become explicit
state passing, network calls become parameters carrying the response (or a
flag for failure), and the single-threaded event-loop interleaving of the
stream reader with UI actions becomes an explicit step function.  Timestamps
(ISO-8601 strings in the source, compared via `new Date`) are modelled as
naturals, since chronological order of valid ISO strings coincides with
their lexicographic order and `new Date` subtraction compares instants.
-/

namespace NovaChat

/-- The `ChartSpec` shape as built by the frontend: `{type, data}` where `data` is an
opaque payload (App.jsx lines 131-137, 277-283). -/
structure ChartSpec where
  type : String
  data : String
  deriving Repr, DecidableEq

/-- A rendered message `{role, content, chart}` as held in the `history`
state of `AppContent` (App.jsx lines 138-142, 190, 254). -/
structure Message where
  role : String
  content : String
  chart : Option ChartSpec
  deriving Repr, DecidableEq

/-- A parsed line of the `/query` stream: `{type: "token"|"chart"|"error", ...}`
(App.jsx lines 270-291). -/
inductive StreamEvent where
  | token (chunk : String)
  | chart (content : ChartSpec)
  | error (content : String)
  deriving Repr, DecidableEq

/-- The fresh assistant placeholder appended before the stream is read:
`{ role: "assistant", content: "", chart: null }` (App.jsx line 254). -/
def assistantPlaceholder : Message :=
  { role := "assistant", content := "", chart := none }

/-- The fixed failure message appended by the outer catch on a non-abort
error (App.jsx line 334). -/
def apologyMessage : Message :=
  { role := "assistant",
    content := "Sorry, I encountered an error connecting to the server.",
    chart := none }

/-- One parsed event folded into the in-flight `assistantMsg`
(App.jsx lines 270-291): `token` appends `chunk` to `content`, `chart`
replaces `chart`, `error` appends the formatted marker to `content`. -/
def applyEvent (m : Message) (e : StreamEvent) : Message :=
  match e with
  | .token chunk => { m with content := m.content ++ chunk }
  | .chart c => { m with chart := some c }
  | .error c => { m with content := m.content ++ "\n[Error: " ++ c ++ "]" }

/-- The update `setHistory(prev => { const h = [...prev]; h[h.length-1] = m; return h })`:
replace the last element (App.jsx lines 272-275 and the context's
`updateLastMessage`, ConversationsContext.jsx lines 160-171, which is a no-op
on an empty list). -/
def setLast (h : List Message) (m : Message) : List Message :=
  match h with
  | [] => []
  | _ :: _ => h.dropLast ++ [m]

/-- One iteration of the event fold: update `assistantMsg`, then write a copy
of it over the last slot of `history` (App.jsx lines 266-295). -/
def stepApply (st : Message × List Message) (e : StreamEvent) : Message × List Message :=
  let m := applyEvent st.1 e
  (m, setLast st.2 m)

/-- Append the placeholder and fold the applied events into it, tracking the
rendered history alongside the in-flight message (App.jsx lines 254-296). -/
def ingestEvents (history : List Message) (events : List StreamEvent) :
    Message × List Message :=
  events.foldl stepApply (assistantPlaceholder, history ++ [assistantPlaceholder])

/-- How the stream loop of `handleSubmit` terminates.  `aborted k` / `failed k`
mean the `reader.read()` call rejects (AbortError / transport error) after the
first `k` events have been applied; the remaining events are never read. -/
inductive StreamOutcome where
  | completed
  | aborted (applied : Nat)
  | failed (applied : Nat)
  deriving Repr, DecidableEq

/-- The rendered history after the stream phase of `handleSubmit`
(App.jsx lines 252-296 plus the catch handler, lines 329-335): on completion
every event was applied; on abort the loop stops after the applied prefix and
the catch for `AbortError` only logs; on a transport error the catch appends
`apologyMessage` as a new list element. -/
def streamRun (history : List Message) (events : List StreamEvent)
    (o : StreamOutcome) : List Message :=
  match o with
  | .completed => (ingestEvents history events).2
  | .aborted k => (ingestEvents history (events.take k)).2
  | .failed k => (ingestEvents history (events.take k)).2 ++ [apologyMessage]

/-- A chart artifact row returned by the backend with a stored message
(App.jsx lines 130-137).  `data_snapshot` / `spec` model the payload fields;
the empty string stands for a JS-falsy (absent) value. -/
structure Artifact where
  type : String
  chart_type : String
  data_snapshot : String
  spec : String
  deriving Repr, DecidableEq

/-- A message as returned by `GET conversation/{id}/messages` and held in the
context's `messages` state (ConversationsContext.jsx line 25). -/
structure StoredMessage where
  role : String
  content : String
  artifacts : List Artifact
  deriving Repr, DecidableEq

/-- The conversion the history-sync effect applies to each context message
(App.jsx lines 129-143): pick the first `chart` artifact, preferring
`data_snapshot` over `spec` (`||` falls through on a falsy snapshot). -/
def convertMessage (msg : StoredMessage) : Message :=
  match msg.artifacts.find? (fun a => a.type == "chart") with
  | some a =>
      { role := msg.role, content := msg.content,
        chart := some { type := a.chart_type,
                        data := if a.data_snapshot ≠ "" then a.data_snapshot
                                else a.spec } }
  | none => { role := msg.role, content := msg.content, chart := none }

/-- Combined state of the context and of `AppContent` during an authenticated
session: the context's `activeConversationId`/`messages`, the rendered
`history`, and the in-flight `assistantMsg` closure of a still-running stream
loop (`none` when no stream is active). -/
structure AppState where
  activeConversationId : Option String
  messages : List StoredMessage
  history : List Message
  streamMsg : Option Message
  deriving Repr, DecidableEq

/-- The function `selectConversation` (ConversationsContext.jsx lines 57-74) together with
the history-sync effect (App.jsx lines 126-146), for an authenticated session
whose page-1 fetch succeeds returning `fetched`: a same-id switch is a no-op;
otherwise the context buffer is replaced, and the sync effect rewrites
`history` only when the fetched list is non-empty (the intermediate
`setMessages([])` never fires it). -/
def selectConversationApp (st : AppState) (id : String)
    (fetched : List StoredMessage) : AppState :=
  if some id = st.activeConversationId then st
  else
    { st with
      activeConversationId := some id,
      messages := fetched,
      history := if fetched.length > 0 then fetched.map convertMessage
                 else st.history }

/-- One more `token` event delivered to a still-active stream loop
(App.jsx lines 270-276): the loop's captured `assistantMsg` grows and is
written over the LAST slot of whatever `history` now holds, regardless of any
conversation switch that happened in between. -/
def streamTokenArrives (st : AppState) (chunk : String) : AppState :=
  match st.streamMsg with
  | none => st
  | some m =>
      let m' : Message := { m with content := m.content ++ chunk }
      { st with streamMsg := some m', history := setLast st.history m' }

/-- JS `String.prototype.trim`: strip leading and trailing whitespace,
embedded structurally over the character list so that it evaluates by
reduction. -/
def jsTrim (s : String) : String :=
  ⟨((s.data.dropWhile Char.isWhitespace).reverse.dropWhile Char.isWhitespace).reverse⟩

/-- A backend request issued by the session engine, in issue order.
`queryStream` is the `POST /query` streaming call itself (not a persistence
write); the others are persistence writes. -/
inductive BackendCall where
  | createConversation (seed : String)
  | persistMessage (conversationId : String) (content : String) (role : String)
  | createArtifact (conversationId : String) (chartType : String)
  | queryStream (sessionId : String)
  | deleteConversation (id : String)
  | updateTitle (id : String) (title : String)
  deriving Repr, DecidableEq

/-- Result of one `handleSubmit` send: the rendered history, the backend
calls issued in order, and the `updateSidebarItem` touch (conversation id and
100-character preview) if one was performed. -/
structure SendResult where
  history : List Message
  calls : List BackendCall
  sidebarTouch : Option (String × String)
  deriving Repr, DecidableEq

/-- The function `handleSubmit` (App.jsx lines 176-339) on the send path (not the
stop-toggle branch), with every backend request recorded in order.  Backend
writes are assumed to succeed; `newConvId` is the id the backend assigns in
the lazy-creation branch.  `outcome` says how the stream loop ended; on
`aborted`/`failed` the save block after the loop is skipped (control jumps to
the catch handler).  The save block runs only when authenticated, with a
confirmed conversation id, and a non-empty final assistant content; it
persists the assistant message, touches the sidebar with the first 100
characters of the query, and then persists the chart artifact if present
(lines 298-327). -/
def handleSubmit (isAuthenticated : Bool) (activeConversationId : Option String)
    (newConvId : String) (history : List Message) (query : String)
    (events : List StreamEvent) (outcome : StreamOutcome) : SendResult :=
  if jsTrim query = "" then { history := history, calls := [], sidebarTouch := none }
  else
    let userMsg : Message := { role := "user", content := query, chart := none }
    let hist1 := history ++ [userMsg]
    let pre : Option String × List BackendCall :=
      if isAuthenticated then
        match activeConversationId with
        | none =>
            (some newConvId,
             [BackendCall.createConversation query,
              BackendCall.persistMessage newConvId query "user"])
        | some cid => (some cid, [BackendCall.persistMessage cid query "user"])
      else (activeConversationId, [])
    let currentId := pre.1
    let preCalls := pre.2 ++ [BackendCall.queryStream (currentId.getD "")]
    let hist2 := streamRun hist1 events outcome
    match outcome with
    | .completed =>
        let assistantFinal := events.foldl applyEvent assistantPlaceholder
        match currentId, isAuthenticated with
        | some cid, true =>
            if assistantFinal.content ≠ "" then
              { history := hist2,
                calls := preCalls ++
                  [BackendCall.persistMessage cid assistantFinal.content "assistant"] ++
                  (match assistantFinal.chart with
                   | some c => [BackendCall.createArtifact cid c.type]
                   | none => []),
                sidebarTouch := some (cid, query.take 100) }
            else { history := hist2, calls := preCalls, sidebarTouch := none }
        | _, _ => { history := hist2, calls := preCalls, sidebarTouch := none }
    | _ => { history := hist2, calls := preCalls, sidebarTouch := none }

/-- A sidebar entry `{id, title, last_message, updated_at}`
(ConversationsContext.jsx lines 102-107).  `updated_at` is an ISO-8601
timestamp in the source, compared through `new Date`; it is modelled as a
natural number since that comparison is exactly chronological order. -/
structure Conversation where
  id : String
  title : String
  last_message : Option String
  updated_at : Nat
  deriving Repr, DecidableEq

/-- One page of `GET conversation/{id}/messages`. -/
structure MessagesPage where
  messages : List StoredMessage
  has_more : Bool
  deriving Repr, DecidableEq

/-- The context state relevant to sidebar and pagination
(ConversationsContext.jsx lines 23-29).  `isLoadingMessages` is omitted: in
this sequential model every awaited fetch has completed (the `finally` blocks
reset the flag) before the next operation starts. -/
structure ConvState where
  conversations : List Conversation
  activeConversationId : Option String
  messages : List StoredMessage
  messagesPage : Nat
  hasMoreMessages : Bool
  deriving Repr, DecidableEq

/-- The function `selectConversation` at the context level (ConversationsContext.jsx lines
57-74), with a successful page-1 fetch returning `fetched`: same-id selection
is a no-op, otherwise the buffer is replaced, the cursor reset to page 1, and
`has_more` taken from the response. -/
def selectConversation (st : ConvState) (cid : String)
    (fetched : MessagesPage) : ConvState :=
  if some cid = st.activeConversationId then st
  else
    { st with
      activeConversationId := some cid,
      messages := fetched.messages,
      messagesPage := 1,
      hasMoreMessages := fetched.has_more }

/-- The function `loadMoreMessages` (ConversationsContext.jsx lines 77-93) with a
successful fetch of the next page: guarded on an active conversation and
`hasMoreMessages`; the returned (older) messages are PREPENDED, the page
counter incremented, and `has_more` updated. -/
def loadMoreMessages (st : ConvState) (fetched : MessagesPage) : ConvState :=
  match st.activeConversationId with
  | none => st
  | some _ =>
      if st.hasMoreMessages then
        { st with
          messages := fetched.messages ++ st.messages,
          messagesPage := st.messagesPage + 1,
          hasMoreMessages := fetched.has_more }
      else st

/-- The function `deleteConversation` (ConversationsContext.jsx lines 126-139).  The
DELETE call is issued first (recorded unconditionally); `backendOk` says
whether it succeeded.  On failure the error is rethrown to the caller
(`errored := true`) and no state is touched; on success the entry is filtered
out and, if it was active, the active id and buffer are cleared. -/
def deleteConversation (st : ConvState) (cid : String) (backendOk : Bool) :
    ConvState × Bool × List BackendCall :=
  if backendOk then
    let st1 := { st with
      conversations := st.conversations.filter (fun c => c.id ≠ cid) }
    let st2 := if st.activeConversationId = some cid then
        { st1 with activeConversationId := none, messages := [] }
      else st1
    (st2, false, [BackendCall.deleteConversation cid])
  else (st, true, [BackendCall.deleteConversation cid])

/-- The function `updateTitle` (ConversationsContext.jsx lines 142-152): the PUT call is
issued first; on failure the error is rethrown and the cache untouched; on
success the matching entry's title is rewritten in place (no re-sort, no
timestamp change). -/
def updateTitle (st : ConvState) (cid : String) (newTitle : String)
    (backendOk : Bool) : ConvState × Bool × List BackendCall :=
  if backendOk then
    ({ st with conversations := st.conversations.map (fun c =>
        if c.id = cid then { c with title := newTitle } else c) }, false,
     [BackendCall.updateTitle cid newTitle])
  else (st, true, [BackendCall.updateTitle cid newTitle])

/-- The sort comparator `(a, b) => new Date(b.updated_at) - new Date(a.updated_at)`
read as the non-strict "sorts no later than" preorder: `a` may come before `b`
exactly when `b.updated_at ≤ a.updated_at`. -/
def sidebarGE (a b : Conversation) : Prop := b.updated_at ≤ a.updated_at

instance : DecidableRel sidebarGE := fun a b => Nat.decLe b.updated_at a.updated_at

instance : IsTotal Conversation sidebarGE :=
  ⟨fun a b => Nat.le_total b.updated_at a.updated_at⟩

instance : IsTrans Conversation sidebarGE :=
  ⟨fun _ _ _ hab hbc => Nat.le_trans hbc hab⟩

/-- The function `updateSidebarItem` (ConversationsContext.jsx lines 174-185): rewrite the
matching entry's preview to `lastMessage` and its timestamp to `now`
(`new Date().toISOString()`), then re-sort descending by timestamp.
`Array.prototype.sort` is stable (ES2019), and `List.insertionSort` over the
non-strict preorder `sidebarGE` is the same stable sort: each element is
inserted before the first entry it compares no-later-than, ties keeping their
original relative order, so the two have identical input/output behavior. -/
def updateSidebarItem (conversations : List Conversation) (cid : String)
    (lastMessage : String) (now : Nat) : List Conversation :=
  List.insertionSort sidebarGE (conversations.map (fun c =>
    if c.id = cid then { c with last_message := some lastMessage, updated_at := now }
    else c))

/-- JS `String.prototype.split` with a one-character separator and no limit,
embedded structurally: `"a\nb".split("\n") = ["a","b"]`, `"a\n".split("\n") =
["a",""]`, `"".split("\n") = [""]`. -/
def splitCharList (sep : Char) : List Char → List (List Char)
  | [] => [[]]
  | c :: cs =>
      let r := splitCharList sep cs
      if c = sep then [] :: r
      else
        match r with
        | [] => [[c]]
        | h :: t => (c :: h) :: t

/-- The expression `chunk.split("\n")` as used at App.jsx line 264. -/
def jsSplitNewline (s : String) : List String :=
  (splitCharList (Char.ofNat 10) s.data).map List.asString

/-- The event lines the source extracts from ONE received chunk (App.jsx
line 264): the decoded chunk is split on newlines in isolation — no carry of
a trailing partial line into the next chunk — and blank lines are dropped. -/
def chunkLines (chunk : String) : List String :=
  (jsSplitNewline chunk).filter (fun line => jsTrim line != "")

/-- Modelled from the spec: `JSON.parse` is a browser builtin, absent from
src, so the wire decoding of §6 is modelled on the canonical un-spaced
serializations of `token` and `error` events without escape sequences
(`{"type":"token","chunk":"..."}` / `{"type":"error","content":"..."}`);
`chart` payloads and any other line do not parse and are skipped, exactly as
an unparseable line is skipped by the catch at App.jsx lines 292-294.
`stripPrefixChars p cs` removes the expected leading characters `p`. -/
def stripPrefixChars : List Char → List Char → Option (List Char)
  | [], rest => some rest
  | _ :: _, [] => none
  | p :: ps, c :: cs => if c = p then stripPrefixChars ps cs else none

/-- Modelled from the spec: the body of a JSON string literal (no escape
sequences), consumed up to its closing quote; returns the decoded string and
the remaining characters. -/
def parseStringBody (acc : List Char) : List Char → Option (String × List Char)
  | [] => none
  | c :: rest =>
      if c = Char.ofNat 34 then some (acc.reverse.asString, rest)
      else if c = Char.ofNat 92 then none
      else parseStringBody (c :: acc) rest

/-- Modelled from the spec: one newline-delimited wire line decoded to a
stream event (§6), restricted to the `token` and `error` forms described
above; every other line yields `none` (skipped by the fold). -/
def parseEventLine (line : String) : Option StreamEvent :=
  match stripPrefixChars ("\x7b\"type\":\"token\",\"chunk\":\"").data line.data with
  | some rest =>
      match parseStringBody [] rest with
      | some (s, tail) => if tail = ("\x7d").data then some (.token s) else none
      | none => none
  | none =>
      match stripPrefixChars ("\x7b\"type\":\"error\",\"content\":\"").data line.data with
      | some rest =>
          match parseStringBody [] rest with
          | some (s, tail) => if tail = ("\x7d").data then some (.error s) else none
          | none => none
      | none => none

/-- The events the SOURCE applies for a whole sequence of received chunks:
each chunk is split into lines on its own (App.jsx lines 259-296), each line
is parsed, and unparseable lines are skipped. -/
def codeChunkEvents (chunks : List String) : List StreamEvent :=
  (chunks.map chunkLines).flatten.filterMap parseEventLine

/-- Modelled from the spec: the line reassembly §6 requires — "a trailing
partial line must be buffered until the next chunk completes it".  The buffer
is prepended to the next chunk before splitting; only complete lines are
emitted, and the final buffer is flushed at end-of-stream.  No such buffering
exists in src. -/
def bufferedLinesAux : List String → String → List String
  | [], buf => if jsTrim buf != "" then [buf] else []
  | ch :: rest, buf =>
      let parts := jsSplitNewline (buf ++ ch)
      (parts.dropLast.filter (fun line => jsTrim line != ""))
        ++ bufferedLinesAux rest (parts.getLastD "")

/-- Modelled from the spec: the event lines of a chunk sequence with the
required partial-line buffering. -/
def specChunkEvents (chunks : List String) : List StreamEvent :=
  (bufferedLinesAux chunks "").filterMap parseEventLine

theorem setLast_concat (h : List Message) (m m' : Message) :
    setLast (h ++ [m]) m' = h ++ [m'] := by
  cases h with
  | nil => rfl
  | cons a t =>
      show ((a :: t) ++ [m]).dropLast ++ [m'] = (a :: t) ++ [m']
      rw [List.dropLast_concat]

theorem ingestEvents_eq (history : List Message) (events : List StreamEvent) :
    ingestEvents history events =
      (events.foldl applyEvent assistantPlaceholder,
       history ++ [events.foldl applyEvent assistantPlaceholder]) := by
  unfold ingestEvents
  suffices h : ∀ (es : List StreamEvent) (m : Message) (hist : List Message),
      es.foldl stepApply (m, hist ++ [m]) =
        (es.foldl applyEvent m, hist ++ [es.foldl applyEvent m]) by
    exact h events assistantPlaceholder history
  intro es
  induction es with
  | nil => intro m hist; rfl
  | cons e t ih =>
      intro m hist
      simp only [List.foldl_cons, stepApply, setLast_concat]
      exact ih (applyEvent m e) hist

theorem foldl_string_append (t : List String) (c : String) :
    t.foldl (fun r s => r ++ s) c = c ++ t.foldl (fun r s => r ++ s) "" := by
  induction t generalizing c with
  | nil => simp
  | cons s t ih =>
      simp only [List.foldl_cons]
      rw [ih (c ++ s), ih ("" ++ s)]
      simp [String.append_assoc]

theorem content_foldl_token (chunks : List String) (m : Message) :
    ((chunks.map StreamEvent.token).foldl applyEvent m) =
      { m with content := m.content ++ String.join chunks } := by
  induction chunks generalizing m with
  | nil => simp [String.join]
  | cons c t ih =>
      simp only [List.map_cons, List.foldl_cons]
      rw [ih]
      simp only [applyEvent, String.join, List.foldl_cons]
      rw [foldl_string_append t ("" ++ c)]
      simp [String.append_assoc]

/-- C2 counterexample: with a stream of conversation "A" still active
(accumulated content "Hel"), switching to conversation "B" (fetch returns its
one user message) and then receiving one more token "lo" from the old stream
overwrites the last slot of B's freshly loaded buffer with A's in-flight
assistant message — the buffer now holds a message that does not belong to
the newly selected conversation. -/
theorem conversation_switch_leaks :
    (streamTokenArrives
        (selectConversationApp
          { activeConversationId := some "A",
            messages := [],
            history := [{ role := "user", content := "hi", chart := none },
                        { role := "assistant", content := "Hel", chart := none }],
            streamMsg := some { role := "assistant", content := "Hel", chart := none } }
          "B"
          [{ role := "user", content := "hello from B", artifacts := [] }])
        "lo").history
      = [{ role := "assistant", content := "Hello", chart := none }] ∧
    ({ role := "assistant", content := "Hello", chart := none } : Message)
      ∉ ([{ role := "user", content := "hello from B", artifacts := [] }] :
          List StoredMessage).map convertMessage := by
  decide

/-- C2 amended: switching to a conversation with a different id while NO
stream is delivering further events replaces the Message Buffer with exactly
the messages fetched for the newly selected conversation, provided the
fetched page is non-empty (an empty fetch leaves the previously rendered
history in place, since the sync effect only fires on a non-empty list). -/
theorem conversation_switch_replaces (st : AppState) (id : String)
    (fetched : List StoredMessage)
    (hid : some id ≠ st.activeConversationId) (hne : fetched ≠ []) :
    (selectConversationApp st id fetched).history = fetched.map convertMessage ∧
    (selectConversationApp st id fetched).messages = fetched ∧
    (selectConversationApp st id fetched).activeConversationId = some id := by
  have hlen : fetched.length > 0 := List.length_pos.mpr hne
  simp [selectConversationApp, hid, hlen]

/-- C2 amended, witness. -/
theorem conversation_switch_replaces_witness :
    (selectConversationApp
        { activeConversationId := some "A", messages := [],
          history := [{ role := "assistant", content := "old", chart := none }],
          streamMsg := none }
        "B"
        [{ role := "user", content := "hello from B", artifacts := [] }]).history
      = [{ role := "user", content := "hello from B", chart := none }] := by
  have h := conversation_switch_replaces
    { activeConversationId := some "A", messages := [],
      history := [{ role := "assistant", content := "old", chart := none }],
      streamMsg := none }
    "B"
    [{ role := "user", content := "hello from B", artifacts := [] }]
    (by decide) (by decide)
  rw [h.1]
  decide

/-- C1: for every sequence of token events applied to the freshly appended
assistant placeholder (content `""`, chart `null`), after the stream-ingestion
fold the placeholder's final content is the concatenation of the events'
`chunk` fields in arrival order, and the rendered history carries the user's
prior messages followed by that finalized message. -/
theorem token_events_concat (chunks : List String) (history : List Message) :
    ((chunks.map StreamEvent.token).foldl applyEvent assistantPlaceholder).content
        = String.join chunks ∧
    streamRun history (chunks.map StreamEvent.token) .completed
        = history ++
          [{ role := "assistant", content := String.join chunks, chart := none }] := by
  constructor
  · rw [content_foldl_token]
    simp [assistantPlaceholder]
  · show (ingestEvents history (chunks.map StreamEvent.token)).2 = _
    rw [ingestEvents_eq, content_foldl_token]
    simp [assistantPlaceholder]

/-- C3: a cancellation delivered while streaming, after the events `applied`
have been folded and before any of `extra` is read, leaves the history exactly
as a completed run over `applied` would: the accumulated partial content is
retained as the final message content, and none of the later events mutates
the message. -/
theorem cancellation_retains_partial (history : List Message)
    (applied extra : List StreamEvent) :
    streamRun history (applied ++ extra) (.aborted applied.length)
        = streamRun history applied .completed ∧
    (streamRun history (applied ++ extra) (.aborted applied.length)).getLast?
        = some (applied.foldl applyEvent assistantPlaceholder) := by
  have htake : (applied ++ extra).take applied.length = applied :=
    List.take_left applied extra
  constructor
  · show (ingestEvents history ((applied ++ extra).take applied.length)).2 = _
    rw [htake]; rfl
  · show (ingestEvents history ((applied ++ extra).take applied.length)).2.getLast? = _
    rw [htake, ingestEvents_eq]
    simp

/-- C4 counterexample: a transport error striking right after the placeholder
was appended (zero events applied, prior history one user message) leaves the
buffer holding the untouched empty placeholder AND a separately appended
apology message — the placeholder's content is not replaced by the failure
string, and the buffer ends with an extra message beyond it. -/
theorem transport_error_leaves_placeholder :
    streamRun [{ role := "user", content := "q", chart := none }] [] (.failed 0)
        = [{ role := "user", content := "q", chart := none },
           { role := "assistant", content := "", chart := none },
           apologyMessage] ∧
    ({ role := "assistant", content := "", chart := none } : Message)
        ∈ streamRun [{ role := "user", content := "q", chart := none }] [] (.failed 0) := by
  decide

/-- C4 amended: on a transport error during an active stream that is not a
cancellation, the partial placeholder is left in place with the content
accumulated so far, and a new assistant message carrying the fixed failure
string is appended after it; the buffer's final message is that apology
message, so the exchange still terminates visibly. -/
theorem transport_error_appends_apology (history : List Message)
    (events : List StreamEvent) (k : Nat) :
    streamRun history events (.failed k)
        = history ++ [(events.take k).foldl applyEvent assistantPlaceholder]
            ++ [apologyMessage] ∧
    (streamRun history events (.failed k)).getLast? = some apologyMessage := by
  have h1 : streamRun history events (.failed k)
      = history ++ [(events.take k).foldl applyEvent assistantPlaceholder]
          ++ [apologyMessage] := by
    show (ingestEvents history (events.take k)).2 ++ [apologyMessage] = _
    rw [ingestEvents_eq]
  refine ⟨h1, ?_⟩
  rw [h1]
  simp

/-- C9: a send performed while unauthenticated issues no backend call other
than the `POST /query` stream itself — no conversation creation, no message
persistence, no artifact persistence, no sidebar touch — and the Message
Buffer still ends with the full exchange: the user message followed by the
finalized assistant message. -/
theorem unauthenticated_send_is_ephemeral (activeId : Option String)
    (newConvId : String) (history : List Message) (query : String)
    (events : List StreamEvent) (hq : jsTrim query ≠ "") :
    (handleSubmit false activeId newConvId history query events .completed).calls
        = [BackendCall.queryStream (activeId.getD "")] ∧
    (handleSubmit false activeId newConvId history query events .completed).sidebarTouch
        = none ∧
    (handleSubmit false activeId newConvId history query events .completed).history
        = history ++ [{ role := "user", content := query, chart := none },
                      events.foldl applyEvent assistantPlaceholder] := by
  have hrun : streamRun
      (history ++ [{ role := "user", content := query, chart := none }]) events
      .completed
      = history ++ [{ role := "user", content := query, chart := none },
                    events.foldl applyEvent assistantPlaceholder] := by
    show (ingestEvents _ events).2 = _
    rw [ingestEvents_eq]
    simp
  refine ⟨?_, ?_, ?_⟩ <;> simp [handleSubmit, hq, hrun]

/-- C9 witness. -/
theorem unauthenticated_send_is_ephemeral_witness :
    (handleSubmit false none "c1" [] "hi" [StreamEvent.token "yo"] .completed).calls
        = [BackendCall.queryStream ""] ∧
    (handleSubmit false none "c1" [] "hi" [StreamEvent.token "yo"] .completed).history
        = [{ role := "user", content := "hi", chart := none },
           { role := "assistant", content := "yo", chart := none }] := by
  have h := unauthenticated_send_is_ephemeral none "c1" [] "hi"
    [StreamEvent.token "yo"] (by decide)
  exact ⟨h.1, by rw [h.2.2]; decide⟩

/-- C10: an authenticated send on a confirmed conversation id whose stream
completes with empty assistant content performs no assistant-message
persistence, no artifact persistence, and no sidebar touch: the only backend
calls are the user-message write and the query stream, and this holds even if
a chart event was applied (the empty-content guard short-circuits the whole
save block). -/
theorem empty_completion_skips_persistence (cid newConvId : String)
    (history : List Message) (query : String) (events : List StreamEvent)
    (hq : jsTrim query ≠ "")
    (hempty : (events.foldl applyEvent assistantPlaceholder).content = "") :
    (handleSubmit true (some cid) newConvId history query events .completed).calls
        = [BackendCall.persistMessage cid query "user",
           BackendCall.queryStream cid] ∧
    (handleSubmit true (some cid) newConvId history query events .completed).sidebarTouch
        = none := by
  refine ⟨?_, ?_⟩ <;> simp [handleSubmit, hq, hempty]

/-- C10 witness: a stream that delivered only a chart event (content stays
empty, chart present) still skips assistant persistence, the artifact write
and the sidebar touch. -/
theorem empty_completion_skips_persistence_witness :
    (handleSubmit true (some "c7") "n" [] "sales?"
        [StreamEvent.chart { type := "bar", data := "d" }] .completed).calls
        = [BackendCall.persistMessage "c7" "sales?" "user",
           BackendCall.queryStream "c7"] ∧
    (handleSubmit true (some "c7") "n" [] "sales?"
        [StreamEvent.chart { type := "bar", data := "d" }] .completed).sidebarTouch
        = none :=
  empty_completion_skips_persistence "c7" "n" [] "sales?"
    [StreamEvent.chart { type := "bar", data := "d" }] (by decide) (by decide)

/-- C6: selecting conversation `c` (page 1, `has_more` true) and then loading
page 2 yields a buffer that is exactly page 2 prepended to page 1 — a
permutation of the two pages with nothing duplicated or dropped — ordered
oldest→newest whenever each backend page is oldest→newest (`older`-sorted)
and the pages do not overlap (everything on page 2 is older than everything
on page 1); the cursor's `has_more` is taken from the page-2 response. -/
theorem pagination_prepends_older (st : ConvState) (cid : String)
    (page1 page2 : List StoredMessage) (hm2 : Bool)
    (older : StoredMessage → StoredMessage → Prop)
    (hid : some cid ≠ st.activeConversationId)
    (h1 : page1.Pairwise older) (h2 : page2.Pairwise older)
    (h12 : ∀ a ∈ page2, ∀ b ∈ page1, older a b) :
    (selectConversation st cid { messages := page1, has_more := true }).messages
        = page1 ∧
    (loadMoreMessages
        (selectConversation st cid { messages := page1, has_more := true })
        { messages := page2, has_more := hm2 }).messages = page2 ++ page1 ∧
    (page2 ++ page1).Pairwise older ∧
    List.Perm (page2 ++ page1) (page1 ++ page2) ∧
    (loadMoreMessages
        (selectConversation st cid { messages := page1, has_more := true })
        { messages := page2, has_more := hm2 }).hasMoreMessages = hm2 := by
  have hsel : selectConversation st cid { messages := page1, has_more := true }
      = { st with activeConversationId := some cid, messages := page1,
                  messagesPage := 1, hasMoreMessages := true } := by
    simp [selectConversation, hid]
  refine ⟨by rw [hsel], by rw [hsel]; rfl, ?_, List.perm_append_comm, by rw [hsel]; rfl⟩
  exact List.pairwise_append.mpr ⟨h2, h1, h12⟩

/-- C6 witness: the older pair ("a", "bb") prepended before the newer pair
("ccc", "dddd"), with "older" read off the strictly growing content length. -/
theorem pagination_prepends_older_witness :
    (loadMoreMessages
        (selectConversation
          { conversations := [], activeConversationId := none, messages := [],
            messagesPage := 1, hasMoreMessages := false }
          "c"
          { messages := [{ role := "user", content := "ccc", artifacts := [] },
                         { role := "assistant", content := "dddd", artifacts := [] }],
            has_more := true })
        { messages := [{ role := "user", content := "a", artifacts := [] },
                       { role := "assistant", content := "bb", artifacts := [] }],
          has_more := false }).messages
      = [{ role := "user", content := "a", artifacts := [] },
         { role := "assistant", content := "bb", artifacts := [] },
         { role := "user", content := "ccc", artifacts := [] },
         { role := "assistant", content := "dddd", artifacts := [] }] := by
  have h := pagination_prepends_older
    { conversations := [], activeConversationId := none, messages := [],
      messagesPage := 1, hasMoreMessages := false }
    "c"
    [{ role := "user", content := "ccc", artifacts := [] },
     { role := "assistant", content := "dddd", artifacts := [] }]
    [{ role := "user", content := "a", artifacts := [] },
     { role := "assistant", content := "bb", artifacts := [] }]
    false
    (fun a b => a.content.length < b.content.length)
    (by decide)
    (by decide)
    (by decide)
    (by decide)
  rw [h.2.1]
  rfl

/-- C7: for both remove and rename, the backend call is always issued (and is
the only call), and on backend failure the whole context state is left
unmodified while the error is rethrown to the caller; only the success path
mutates the cache (filtering the entry out, resp. rewriting its title). -/
theorem rename_remove_no_optimism (st : ConvState) (cid title : String)
    (ok : Bool) :
    deleteConversation st cid false = (st, true, [BackendCall.deleteConversation cid]) ∧
    updateTitle st cid title false = (st, true, [BackendCall.updateTitle cid title]) ∧
    (deleteConversation st cid ok).2.2 = [BackendCall.deleteConversation cid] ∧
    (updateTitle st cid title ok).2.2 = [BackendCall.updateTitle cid title] ∧
    ((deleteConversation st cid ok).2.1 = false →
      (deleteConversation st cid ok).1.conversations
        = st.conversations.filter (fun c => c.id ≠ cid)) ∧
    ((updateTitle st cid title ok).2.1 = false →
      (updateTitle st cid title ok).1.conversations
        = st.conversations.map (fun c =>
            if c.id = cid then { c with title := title } else c)) := by
  refine ⟨rfl, rfl, ?_, ?_, ?_, ?_⟩ <;> cases ok
  · rfl
  · show (_, false, [BackendCall.deleteConversation cid]).2.2 = _
    rfl
  · rfl
  · rfl
  · intro h
    exact absurd h (by simp [deleteConversation])
  · intro h
    show (if st.activeConversationId = some cid then _ else _ : ConvState).conversations = _
    split <;> rfl
  · intro h
    exact absurd h (by simp [updateTitle])
  · intro h
    rfl

/-- C7 witness. -/
theorem rename_remove_no_optimism_witness :
    deleteConversation
        { conversations := [{ id := "a", title := "t", last_message := none,
                              updated_at := 5 }],
          activeConversationId := none, messages := [], messagesPage := 1,
          hasMoreMessages := false }
        "a" false
      = ({ conversations := [{ id := "a", title := "t", last_message := none,
                               updated_at := 5 }],
           activeConversationId := none, messages := [], messagesPage := 1,
           hasMoreMessages := false }, true, [BackendCall.deleteConversation "a"]) ∧
    (updateTitle
        { conversations := [{ id := "a", title := "t", last_message := none,
                              updated_at := 5 }],
          activeConversationId := none, messages := [], messagesPage := 1,
          hasMoreMessages := false }
        "a" "nt" true).1.conversations
      = [{ id := "a", title := "nt", last_message := none, updated_at := 5 }] := by
  have h := rename_remove_no_optimism
    { conversations := [{ id := "a", title := "t", last_message := none,
                          updated_at := 5 }],
      activeConversationId := none, messages := [], messagesPage := 1,
      hasMoreMessages := false }
    "a" "nt" true
  refine ⟨h.1, ?_⟩
  rw [h.2.2.2.2.2 (by decide)]
  decide

/-- C8: (1) when the touched id is present and `now` is strictly later than
every other entry's timestamp, the touched conversation ends at index 0;
(2) the resulting cache is always sorted descending by `updated_at`; (3) when
the id is absent and the cache was already sorted, the call leaves the cache
unchanged (the map is the identity and the stable sort fixes a sorted list). -/
theorem upsert_from_activity (conversations : List Conversation) (cid : String)
    (lastMessage : String) (now : Nat) :
    ((∃ c ∈ conversations, c.id = cid) →
      (∀ c ∈ conversations, c.id ≠ cid → c.updated_at < now) →
      (updateSidebarItem conversations cid lastMessage now).head?.map Conversation.id
        = some cid) ∧
    (updateSidebarItem conversations cid lastMessage now).Pairwise sidebarGE ∧
    ((∀ c ∈ conversations, c.id ≠ cid) → conversations.Pairwise sidebarGE →
      updateSidebarItem conversations cid lastMessage now = conversations) := by
  set f : Conversation → Conversation := fun c =>
    if c.id = cid then { c with last_message := some lastMessage, updated_at := now }
    else c with hf
  refine ⟨?_, List.sorted_insertionSort sidebarGE _, ?_⟩
  · rintro ⟨c₀, hc₀, hid₀⟩ hlt
    have hu : f c₀ ∈ conversations.map f := List.mem_map_of_mem f hc₀
    have huat : (f c₀).updated_at = now := by
      simp only [hf, if_pos hid₀]
    have hperm : List.Perm (updateSidebarItem conversations cid lastMessage now)
        (conversations.map f) := List.perm_insertionSort sidebarGE _
    have hsort : List.Sorted sidebarGE
        (updateSidebarItem conversations cid lastMessage now) :=
      List.sorted_insertionSort sidebarGE _
    have humem : f c₀ ∈ updateSidebarItem conversations cid lastMessage now :=
      hperm.mem_iff.mpr hu
    obtain ⟨h, t, hht⟩ : ∃ h t,
        updateSidebarItem conversations cid lastMessage now = h :: t := by
      cases hres : updateSidebarItem conversations cid lastMessage now with
      | nil => rw [hres] at humem; cases humem
      | cons h t => exact ⟨h, t, rfl⟩
    rw [hht]
    have hnow_le : now ≤ h.updated_at := by
      rw [hht] at humem hsort
      rcases List.mem_cons.mp humem with heq | hmem
      · rw [← heq, huat]
      · have hrel := List.rel_of_sorted_cons hsort (f c₀) hmem
        simp only [sidebarGE] at hrel
        rw [huat] at hrel
        exact hrel
    have hh_mem : h ∈ conversations.map f := by
      have : h ∈ updateSidebarItem conversations cid lastMessage now := by
        rw [hht]; exact List.mem_cons_self h t
      exact hperm.mem_iff.mp this
    obtain ⟨c₁, hc₁, hfc₁⟩ := List.mem_map.mp hh_mem
    by_cases hid₁ : c₁.id = cid
    · have : h.id = cid := by
        rw [← hfc₁]
        simp only [hf, if_pos hid₁]
        exact hid₁
      simp [this]
    · exfalso
      have : h.updated_at < now := by
        rw [← hfc₁]
        simp only [hf, if_neg hid₁]
        exact hlt c₁ hc₁ hid₁
      exact absurd hnow_le (Nat.not_le_of_lt this)
  · intro habsent hsorted
    have hmap : conversations.map f = conversations := by
      rw [List.map_congr_left (fun c hc => ?_), List.map_id]
      simp only [hf, if_neg (habsent c hc)]
      rfl
    show List.insertionSort sidebarGE (conversations.map f) = conversations
    rw [hmap]
    exact List.Sorted.insertionSort_eq hsorted

/-- C8 witness: touching the older of two entries with a strictly newer
timestamp moves it to index 0; touching an id absent from an already sorted
cache leaves it unchanged. -/
theorem upsert_from_activity_witness :
    (updateSidebarItem
        [{ id := "a", title := "ta", last_message := none, updated_at := 5 },
         { id := "b", title := "tb", last_message := none, updated_at := 9 }]
        "a" "preview" 10).head?.map Conversation.id = some "a" ∧
    updateSidebarItem
        [{ id := "b", title := "tb", last_message := none, updated_at := 9 },
         { id := "a", title := "ta", last_message := none, updated_at := 5 }]
        "zz" "preview" 10
      = [{ id := "b", title := "tb", last_message := none, updated_at := 9 },
         { id := "a", title := "ta", last_message := none, updated_at := 5 }] := by
  constructor
  · exact (upsert_from_activity
      [{ id := "a", title := "ta", last_message := none, updated_at := 5 },
       { id := "b", title := "tb", last_message := none, updated_at := 9 }]
      "a" "preview" 10).1 (by decide) (by decide)
  · exact (upsert_from_activity
      [{ id := "b", title := "tb", last_message := none, updated_at := 9 },
       { id := "a", title := "ta", last_message := none, updated_at := 5 }]
      "zz" "preview" 10).2.2 (by decide) (by decide)

/-- C5: a token event line split across two chunks (`...\"chu` / `nk\":...`)
is lost by the source — each fragment fails to parse on its own and is
skipped, so the fold applies NO event and the final content is empty — while
the buffering the spec requires reassembles the line into the single event
`token "hi"` whose application yields content "hi". -/
theorem chunk_boundary_line_lost :
    codeChunkEvents
        ["\x7b\"type\":\"token\",\"chu", "nk\":\"hi\"\x7d\n"] = [] ∧
    (codeChunkEvents
        ["\x7b\"type\":\"token\",\"chu", "nk\":\"hi\"\x7d\n"]).foldl
        applyEvent assistantPlaceholder = assistantPlaceholder ∧
    specChunkEvents
        ["\x7b\"type\":\"token\",\"chu", "nk\":\"hi\"\x7d\n"]
      = [StreamEvent.token "hi"] ∧
    ((specChunkEvents
        ["\x7b\"type\":\"token\",\"chu", "nk\":\"hi\"\x7d\n"]).foldl
        applyEvent assistantPlaceholder).content = "hi" := by
  decide

end NovaChat
